import Mathlib

/-!
# Verification of the CrimeDataStory pipeline

A shallow embedding of the data-processing pipeline of the crime-data
dashboard (files `utils.py`, `crime_dashboard.py`, `safety_score.py`):
fetch pagination, geocoding with a persistent cache, time-of-day
bucketing, filter composition, color-tier breakpoints, and the two-stage
safety-score normalization.  Pure numeric code working on floating-point
values is modelled over `ℚ` (exact inputs) and `ℝ` (for the exponential),
with float `NaN` made explicit as `Option.none` where it can arise.
-/

namespace CrimeDataStory

/-! ## Data model

`Attributes` is one raw record returned by the remote feature service
(`outFields = Incident_Type, Block_Address, Occurred_Datetime`).
`Block_Address` is nullable; `Occurred_Datetime` is a millisecond epoch. -/

structure Attributes where
  incident_Type : String
  block_Address : Option String
  occurred_Datetime : Int
deriving DecidableEq

/-! ## Incident Fetcher (`utils.fetch_crime_data`)

The remote service holds, for the queried date range, a fixed list of
matching records; a page request with `resultOffset = offset` and
`resultRecordCount = batch_size` returns the records from `offset`, at
most `batch_size` of them.  The python loop accumulates pages until an
empty page is returned.

After the loop, `pd.DataFrame([...])` is built from the accumulated
attribute dicts and then `df["Occurred_Datetime"]` is read (to convert
the ms epoch).  When the accumulated list is empty, `pd.DataFrame([])`
has no columns at all, so that column read raises `KeyError`; the
embedding makes this failure explicit as `Except.error`. -/

def batch_size : Nat := 2000

def pageAt (records : List Attributes) (offset : Nat) : List Attributes :=
  (records.drop offset).take batch_size

def fetch_loop (records : List Attributes) (offset : Nat) (acc : List Attributes) :
    List Attributes :=
  if pageAt records offset = [] then acc
  else fetch_loop records (offset + batch_size) (acc ++ pageAt records offset)
termination_by records.length - offset
decreasing_by
  rename_i hne
  have hoff : offset < records.length := by
    by_contra hle
    apply hne
    unfold pageAt
    rw [List.drop_eq_nil_iff.mpr (by omega)]
    simp
  simp only [batch_size]
  omega

def fetch_crime_data (records : List Attributes) : Except String (List Attributes) :=
  let all_features := fetch_loop records 0 []
  if all_features = [] then
    Except.error "KeyError: Occurred_Datetime"
  else
    Except.ok all_features

/-! ## Time-of-Day Classifier (`utils.add_time_of_day`)

`pd.cut(df.hour, bins=[0,6,12,18,24], labels=[...], right=False)`
assigns `labels[i]` when `bins[i] <= hour < bins[i+1]` (left-closed,
right-open, `right=False`), and a missing value (`none`) when the hour
falls in no bin. -/

def cut_bins : List ℚ := [0, 6, 12, 18, 24]

def cut_labels : List String := ["Night", "Morning", "Afternoon", "Evening"]

def pd_cut_left_closed (x : ℚ) : Option String :=
  match (List.range (cut_bins.length - 1)).find?
      (fun i => decide (cut_bins.getD i 0 ≤ x ∧ x < cut_bins.getD (i + 1) 0)) with
  | some i => cut_labels.getD i ""
  | none => none

/-- `df.Occurred_Datetime.dt.hour` for a millisecond-epoch timestamp
(floor semantics, as python / pandas use). -/
def hourOfMs (ms : Int) : Nat := ((ms.fdiv 3600000).fmod 24).toNat

def time_of_day_of_hour (h : Nat) : Option String := pd_cut_left_closed (h : ℚ)

/-- The bucket map exactly as the spec words it:
[0,6) Night, [6,12) Morning, [12,18) Afternoon, [18,24) Evening. -/
def spec_bucket (h : Nat) : String :=
  if h < 6 then "Night"
  else if h < 12 then "Morning"
  else if h < 18 then "Afternoon"
  else "Evening"

/-! ## Address Geocoder (`utils.geocode_addresses`)

The pass loads a persistent cache (address → coordinates-or-null),
iterates over the unique non-null addresses of the frame, queries the
external provider only on a cache miss (appending ", Berkeley, CA" to
the address), records a failed or erroring lookup as a null cache entry,
joins the per-address results back onto the rows and drops rows whose
coordinates are null (null address, unresolved address).

The external provider is a parameter: `GeoReply.found` is a successful
lookup, `GeoReply.notFound` a `None` response, `GeoReply.error` a raised
exception.  `GeoState.calls` logs every address sent to the provider. -/

abbrev Coords := ℚ × ℚ

inductive GeoReply where
  | found (lat lon : ℚ)
  | notFound
  | error
deriving DecidableEq

/-- A python dict with `Option Coords` values, as an association list;
`dictGet` is `d[k]` (first binding wins), `none` when the key is absent. -/
abbrev Cache := List (String × Option Coords)

def dictGet (d : Cache) (a : String) : Option (Option Coords) :=
  (d.find? (fun p => p.1 == a)).map (·.2)

structure GeoState where
  cache : Cache
  address_coords : Cache
  calls : List String
deriving DecidableEq

/-- The cache entry written for a provider reply:
`(location.latitude, location.longitude) if location else None`, and the
bare `except` branch also writes `None`. -/
def geoEntry : GeoReply → Option Coords
  | .found lat lon => some (lat, lon)
  | .notFound => none
  | .error => none

/-- The body of the per-address loop: on a cache miss the provider is
queried and the reply (or the caught exception) is recorded in the
cache; in every case `address_coords[address] = geocode_cache[address]`. -/
def geocode_one (provider : String → GeoReply) (s : GeoState) (address : String) :
    GeoState :=
  match dictGet s.cache address with
  | some cached =>
      { s with address_coords := s.address_coords ++ [(address, cached)] }
  | none =>
      let entry := geoEntry (provider (address ++ ", Berkeley, CA"))
      { cache := s.cache ++ [(address, entry)]
        address_coords := s.address_coords ++ [(address, entry)]
        calls := s.calls ++ [address] }

def geocode_pass (provider : String → GeoReply) (cache0 : Cache)
    (addrs : List String) : GeoState :=
  addrs.foldl (geocode_one provider) ⟨cache0, [], []⟩

/-- `Series.unique()`: values in order of first appearance. -/
def uniqueFirstAux : List String → List String → List String
  | [], _ => []
  | a :: rest, seen =>
      if seen.contains a then uniqueFirstAux rest seen
      else a :: uniqueFirstAux rest (a :: seen)

def uniqueFirst (l : List String) : List String := uniqueFirstAux l []

/-- `df.Block_Address.dropna().unique()`. -/
def unique_addresses (df : List Attributes) : List String :=
  uniqueFirst (df.filterMap (·.block_Address))

/-- A geocoded row: the original attributes plus resolved coordinates. -/
structure GeoRow where
  incident_Type : String
  block_Address : Option String
  occurred_Datetime : Int
  latitude : ℚ
  longitude : ℚ
deriving DecidableEq

structure GeocodeResult where
  rows : List GeoRow
  cache : Cache
  calls : List String
deriving DecidableEq

/-- `df.coords = df.Block_Address.map(address_coords)` followed by
`dropna(subset=[coords])` and the split into latitude/longitude, for one
row: a row survives only when its address is non-null and mapped to
resolved coordinates (a null address maps to NaN, an address with a null
or missing entry to None — both dropped). -/
def join_coords (ac : Cache) (r : Attributes) : Option GeoRow :=
  match r.block_Address with
  | none => none
  | some a =>
    match dictGet ac a with
    | some (some (lat, lon)) =>
        some ⟨r.incident_Type, some a, r.occurred_Datetime, lat, lon⟩
    | _ => none

/-- The whole geocoding pass: run the loop over the unique non-null
addresses, then join the per-address results back onto the rows. -/
def geocode_addresses (provider : String → GeoReply) (cache0 : Cache)
    (df : List Attributes) : GeocodeResult :=
  let s := geocode_pass provider cache0 (unique_addresses df)
  ⟨df.filterMap (join_coords s.address_coords), s.cache, s.calls⟩

/-! ## Enriched rows and the filter layer (`crime_dashboard.original_main`)

After geocoding, `add_time_of_day` derives `hour` and the categorical
`time_of_day`; the dashboard then filters by
`Incident_Type.isin(types) & time_of_day.isin(times)`. -/

structure EnrichedRow where
  incident_Type : String
  block_Address : Option String
  occurred_Datetime : Int
  latitude : ℚ
  longitude : ℚ
  hour : Nat
  time_of_day : Option String
deriving DecidableEq

def add_time_of_day (rows : List GeoRow) : List EnrichedRow :=
  rows.map (fun r =>
    ⟨r.incident_Type, r.block_Address, r.occurred_Datetime, r.latitude, r.longitude,
      hourOfMs r.occurred_Datetime, time_of_day_of_hour (hourOfMs r.occurred_Datetime)⟩)

/-- `Series.isin(selected)` on the categorical time-of-day column: a
missing value is in no selection. -/
def isinOpt (selected : List String) (v : Option String) : Bool :=
  match v with
  | some s => selected.contains s
  | none => false

def filter_by_type (types : List String) (df : List EnrichedRow) : List EnrichedRow :=
  df.filter (fun r => types.contains r.incident_Type)

def filter_by_time (times : List String) (df : List EnrichedRow) : List EnrichedRow :=
  df.filter (fun r => isinOpt times r.time_of_day)

/-- The combined mask of `original_main`:
`Incident_Type.isin(types) & time_of_day.isin(times)`. -/
def apply_filters (types times : List String) (df : List EnrichedRow) :
    List EnrichedRow :=
  df.filter (fun r => types.contains r.incident_Type && isinOpt times r.time_of_day)

/-- The `original_main` run-analysis pipeline: fetch, and only when the
raw frame is non-empty, geocode and enrich.  (The nearest-edge snapping
stage that follows is a call into the external road-network library and
is outside the claims.)  `Except.ok none` is the "no data" terminal
state in which neither the geocoder nor the aggregation runs. -/
def original_main_run (records : List Attributes) (provider : String → GeoReply)
    (cache0 : Cache) : Except String (Option (List EnrichedRow × List String)) :=
  match fetch_crime_data records with
  | .error e => .error e
  | .ok raw =>
      if raw = [] then .ok none
      else
        let g := geocode_addresses provider cache0 raw
        .ok (some (add_time_of_day g.rows, g.calls))

/-! ## Color-tier breakpoints (`crime_dashboard.classify_counts`,
`crime_dashboard.get_color_for_count`)

`classify_counts` receives the filtered per-edge count dict and returns
`np.unique(np.quantile(values, [0.2, 0.4, 0.6, 0.8, 1.0])).tolist()`
(or `[]` for an empty dict); it is modelled on the dict's value list.
`np.quantile` with the default linear interpolation evaluates the sorted
values at the virtual index `q * (n - 1)`. -/

def interpSorted (sorted : List ℚ) (h : ℚ) : ℚ :=
  sorted.getD (⌊h⌋.toNat) 0 +
    (h - ((⌊h⌋.toNat : Nat) : ℚ)) *
      (sorted.getD (min (⌊h⌋.toNat + 1) (sorted.length - 1)) 0 -
        sorted.getD (⌊h⌋.toNat) 0)

def npQuantile (values : List ℚ) (q : ℚ) : ℚ :=
  interpSorted (values.insertionSort (· ≤ ·)) (q * ((values.length : ℚ) - 1))

/-- `np.unique`: sort ascending and drop duplicates. -/
def dedupSorted : List ℚ → List ℚ
  | [] => []
  | [x] => [x]
  | x :: y :: rest =>
      if x = y then dedupSorted (y :: rest) else x :: dedupSorted (y :: rest)

def npUnique (l : List ℚ) : List ℚ := dedupSorted (l.insertionSort (· ≤ ·))

def classify_counts (counts : List ℚ) : List ℚ :=
  if counts = [] then []
  else npUnique (([0.2, 0.4, 0.6, 0.8, 1.0] : List ℚ).map (npQuantile counts))

def color_palette : List String :=
  ["#2ECC40", "#FFDC00", "#FF851B", "#FF4136", "#85144b"]

def get_color_for_count (count : ℚ) (breaks : List ℚ) : String :=
  if breaks = [] then "#CCCCCC"
  else
    match (List.range (breaks.length - 1)).find?
        (fun i => decide (breaks.getD i 0 ≤ count ∧ count < breaks.getD (i + 1) 0)) with
    | some i => color_palette.getD i ""
    | none => color_palette.getLastD ""

/-! ## Density Scorer (`safety_score.py`)

Stage 1, `calculate_crime_density_scores`: counts are capped at the 95th
percentile, centered at the median, scaled by `p95 - p50 + 1e-9`, pushed
through the inverted sigmoid `10 * (1 - 1 / (1 + exp(-3 * scaled)))`,
rounded to one decimal and clipped to [0.5, 9.5].  (The code also
computes the 25th/75th/90th percentiles but never uses them.)  The count
pipeline up to `scaled` is exact rational arithmetic; the sigmoid lives
in `ℝ`.

`np.round(x, 1)` rounds half to even; `np.clip` / `Series.clip` is
maximum-then-minimum. -/

open Classical in
noncomputable def roundHalfEven (x : ℝ) : ℤ :=
  if x - ⌊x⌋ < 1/2 then ⌊x⌋
  else if 1/2 < x - ⌊x⌋ then ⌊x⌋ + 1
  else if Even ⌊x⌋ then ⌊x⌋ else ⌊x⌋ + 1

noncomputable def np_round1 (x : ℝ) : ℝ := (roundHalfEven (x * 10) : ℝ) / 10

noncomputable def clipR (lo hi x : ℝ) : ℝ := min hi (max lo x)

noncomputable def sigmoid_inverted (scaled : ℝ) : ℝ :=
  10 * (1 - 1 / (1 + Real.exp (-3 * scaled)))

noncomputable def score_of (crime_counts : List ℚ) (c : ℚ) : ℝ :=
  let p50 := npQuantile crime_counts 0.5
  let p95 := npQuantile crime_counts 0.95
  let x := min c p95
  let scaled := (x - p50) / (p95 - p50 + 1e-9)
  clipR 0.5 9.5 (np_round1 (sigmoid_inverted (scaled : ℝ)))

noncomputable def calculate_crime_density_scores (crime_counts : List ℚ) : List ℝ :=
  crime_counts.map (score_of crime_counts)

/-! Stage 2, the final re-normalization of `precompute_safety_scores`:
after the merge, zero-incident edges get the `fillna` default 10, and
the whole column is re-normalized by
`np.round((scores - scores.mean()) / scores.std() * 2 + 5, 1).clip(0, 10)`.

`Series.std()` (ddof = 1) is the square root of the sample variance: it
is NaN for fewer than two scores and zero exactly when the sample
variance is zero (all scores equal), and in that case the code divides
the zero deviations by zero, which is float NaN; NaN survives `np.round`
and `clip`.  NaN is modelled as `none`. -/

def seriesMean (xs : List ℚ) : ℚ := xs.sum / (xs.length : ℚ)

def seriesVar (xs : List ℚ) : ℚ :=
  ((xs.map (fun x => (x - seriesMean xs) ^ 2)).sum) / ((xs.length : ℚ) - 1)

noncomputable def renormalize_scores (scores : List ℚ) : List (Option ℝ) :=
  if scores.length ≤ 1 then scores.map (fun _ => none)
  else if seriesVar scores = 0 then scores.map (fun _ => none)
  else
    scores.map (fun x => some (clipR 0 10 (np_round1
      (((x : ℝ) - ((seriesMean scores : ℚ) : ℝ)) /
        Real.sqrt ((seriesVar scores : ℚ) : ℝ) * 2 + 5))))

/-- The merged safety-score column for a network of `n` edges none of
which matched any incident: every edge carries the `fillna` default 10
(the stage-1 branch is skipped because nothing merged). -/
def all_zero_incident_scores (n : Nat) : List ℚ := List.replicate n 10

end CrimeDataStory

namespace CrimeDataStory

/-! ## Claim theorems (fetch and time-of-day) -/

/-- C6: a feed holding exactly `batch_size` records (full page 1, empty
page 2) yields exactly those `batch_size` records: the pagination loop
terminates on the first empty page and no record is duplicated or
dropped. -/
theorem C6_pagination_exact_batch (records : List Attributes)
    (h : records.length = batch_size) :
    fetch_crime_data records = Except.ok records ∧
      fetch_loop records 0 [] = records := by
  have hne : records ≠ [] := by
    intro hnil
    rw [hnil] at h
    simp [batch_size] at h
  have hpage0 : pageAt records 0 = records := by
    unfold pageAt
    rw [List.drop_zero, ← h, List.take_length]
  have hpage1 : pageAt records (0 + batch_size) = [] := by
    unfold pageAt
    rw [List.drop_eq_nil_iff.mpr (by omega)]
    simp
  have hloop : fetch_loop records 0 [] = records := by
    rw [fetch_loop, if_neg (by rw [hpage0]; exact hne)]
    rw [hpage0, fetch_loop, if_pos hpage1]
    simp
  refine ⟨?_, hloop⟩
  unfold fetch_crime_data
  simp only [hloop]
  rw [if_neg hne]

/-- Witness for C6 at a concrete feed of exactly 2000 records. -/
theorem C6_pagination_exact_batch_witness :
    fetch_crime_data (List.replicate batch_size ⟨"Theft", some "A", 0⟩) =
        Except.ok (List.replicate batch_size ⟨"Theft", some "A", 0⟩) ∧
      fetch_loop (List.replicate batch_size ⟨"Theft", some "A", 0⟩) 0 [] =
        List.replicate batch_size ⟨"Theft", some "A", 0⟩ :=
  C6_pagination_exact_batch _ (by simp)

/-- C2 (code bug): a date range whose fetch returns no records does NOT
yield an empty result set: the accumulated feature list is empty, so
`pd.DataFrame([])` has no columns and the subsequent
`df["Occurred_Datetime"]` read raises `KeyError` instead of returning an
empty frame. -/
theorem C2_empty_fetch_raises :
    fetch_crime_data [] = Except.error "KeyError: Occurred_Datetime" := by
  have hloop : fetch_loop [] 0 [] = [] := by
    rw [fetch_loop]
    simp [pageAt]
  unfold fetch_crime_data
  simp [hloop]

/-- C4: the time-of-day bucket computed by `pd.cut` is a total function
of the hour agreeing with the spec's partition of [0,24). -/
theorem C4_time_of_day_partition (h : Nat) (hlt : h < 24) :
    time_of_day_of_hour h = some (spec_bucket h) := by
  interval_cases h <;> rfl

/-- Witness for C4 at the hours named by the claim: 5, 6 and 23. -/
theorem C4_time_of_day_partition_witness :
    time_of_day_of_hour 5 = some "Night" ∧
      time_of_day_of_hour 6 = some "Morning" ∧
      time_of_day_of_hour 23 = some "Evening" :=
  ⟨C4_time_of_day_partition 5 (by omega), C4_time_of_day_partition 6 (by omega),
    C4_time_of_day_partition 23 (by omega)⟩

/-! ## Claim theorems (filters) -/

/-- C8: filtering by incident type and by time-of-day commutes, each
filter is idempotent, and the dashboard's combined mask equals the
sequential composition. -/
theorem C8_filter_composition (types times : List String) (df : List EnrichedRow) :
    filter_by_time times (filter_by_type types df) =
        filter_by_type types (filter_by_time times df) ∧
      filter_by_type types (filter_by_type types df) = filter_by_type types df ∧
      filter_by_time times (filter_by_time times df) = filter_by_time times df ∧
      apply_filters types times df = filter_by_time times (filter_by_type types df) := by
  refine ⟨?_, ?_, ?_, ?_⟩ <;>
    simp only [filter_by_time, filter_by_type, apply_filters, List.filter_filter]
  · apply List.filter_congr
    intro r _
    exact Bool.and_comm _ _
  · apply List.filter_congr
    intro r _
    exact Bool.and_self _
  · apply List.filter_congr
    intro r _
    exact Bool.and_self _
  · apply List.filter_congr
    intro r _
    exact Bool.and_comm _ _

/-! ## Claim theorems (color-tier breakpoints) -/

/-- C3 (code bug), evaluated at the inputs the claim names.  For the
filtered count map with values {1, 2, 10} the breakpoints are the
20th/40th/60th/80th/100th percentiles [1.4, 1.8, 3.6, 6.8, 10]; the
maximum count 10 gets the top tier color, but so does the minimum count
1: it lies below the lowest breakpoint, matches no half-open interval,
and falls through to the final `return color_palette[-1]`.  A
single-valued distribution produces one breakpoint (not none) and its
edges also get the top tier color rather than the neutral one; only the
empty distribution yields no breakpoints and the neutral color. -/
theorem C3_breakpoint_tiers_eval :
    classify_counts [1, 2, 10] = [7/5, 9/5, 18/5, 34/5, 10] ∧
      get_color_for_count 10 (classify_counts [1, 2, 10]) = "#85144b" ∧
      get_color_for_count 1 (classify_counts [1, 2, 10]) = "#85144b" ∧
      get_color_for_count 1 (classify_counts [1, 2, 10]) ≠ "#2ECC40" ∧
      classify_counts [5, 5] = [5] ∧
      get_color_for_count 5 (classify_counts [5, 5]) = "#85144b" ∧
      classify_counts [] = [] ∧
      get_color_for_count 3 (classify_counts []) = "#CCCCCC" := by
  have ht : Int.toNat 2 = 2 := rfl
  have hq : classify_counts [1, 2, 10] = [7/5, 9/5, 18/5, 34/5, 10] := by
    have q1 : npQuantile [1, 2, 10] (1/5) = 7/5 := by
      norm_num [npQuantile, interpSorted, List.insertionSort, List.orderedInsert,
        Int.floor_eq_iff]
    have q2 : npQuantile [1, 2, 10] (2/5) = 9/5 := by
      norm_num [npQuantile, interpSorted, List.insertionSort, List.orderedInsert,
        Int.floor_eq_iff]
    have q3 : npQuantile [1, 2, 10] (3/5) = 18/5 := by
      norm_num [npQuantile, interpSorted, List.insertionSort, List.orderedInsert,
        Int.floor_eq_iff]
    have q4 : npQuantile [1, 2, 10] (4/5) = 34/5 := by
      norm_num [npQuantile, interpSorted, List.insertionSort, List.orderedInsert,
        Int.floor_eq_iff]
    have q5 : npQuantile [1, 2, 10] 1 = 10 := by
      norm_num [npQuantile, interpSorted, List.insertionSort, List.orderedInsert,
        Int.floor_eq_iff, ht]
    norm_num [classify_counts, q1, q2, q3, q4, q5, npUnique, dedupSorted,
      List.insertionSort, List.orderedInsert, List.cons_ne_nil]
  have hq5 : classify_counts [5, 5] = [5] := by
    have e1 : npQuantile [5, 5] (1/5) = 5 := by
      norm_num [npQuantile, interpSorted, List.insertionSort, List.orderedInsert,
        Int.floor_eq_iff]
    have e2 : npQuantile [5, 5] (2/5) = 5 := by
      norm_num [npQuantile, interpSorted, List.insertionSort, List.orderedInsert,
        Int.floor_eq_iff]
    have e3 : npQuantile [5, 5] (3/5) = 5 := by
      norm_num [npQuantile, interpSorted, List.insertionSort, List.orderedInsert,
        Int.floor_eq_iff]
    have e4 : npQuantile [5, 5] (4/5) = 5 := by
      norm_num [npQuantile, interpSorted, List.insertionSort, List.orderedInsert,
        Int.floor_eq_iff]
    have e5 : npQuantile [5, 5] 1 = 5 := by
      norm_num [npQuantile, interpSorted, List.insertionSort, List.orderedInsert,
        Int.floor_eq_iff]
    norm_num [classify_counts, e1, e2, e3, e4, e5, npUnique, dedupSorted,
      List.insertionSort, List.orderedInsert, List.cons_ne_nil]
  have h10 : get_color_for_count 10 [7/5, 9/5, 18/5, 34/5, 10] = "#85144b" := by
    norm_num [get_color_for_count, color_palette, List.range_succ, List.find?,
      List.cons_ne_nil]
  have h1 : get_color_for_count 1 [7/5, 9/5, 18/5, 34/5, 10] = "#85144b" := by
    norm_num [get_color_for_count, color_palette, List.range_succ, List.find?,
      List.cons_ne_nil]
  have h5 : get_color_for_count 5 [(5 : ℚ)] = "#85144b" := by
    norm_num [get_color_for_count, color_palette, List.range_succ, List.find?,
      List.cons_ne_nil]
  refine ⟨hq, ?_, ?_, ?_, hq5, ?_, by simp [classify_counts],
    by simp [get_color_for_count, classify_counts]⟩
  · rw [hq]; exact h10
  · rw [hq]; exact h1
  · rw [hq, h1]; decide
  · rw [hq5]; exact h5

/-! ## Lemmas about the geocoding pass -/

theorem dictGet_append_of_some {d : Cache} {a : String} {v : Option Coords}
    (h : dictGet d a = some v) (l : Cache) : dictGet (d ++ l) a = some v := by
  unfold dictGet at h ⊢
  rw [List.find?_append]
  cases hf : d.find? (fun p => p.1 == a) with
  | none => rw [hf] at h; simp at h
  | some pr => rw [hf] at h; simpa using h

theorem dictGet_append_single_of_none {d : Cache} {a : String}
    (h : dictGet d a = none) (b : String) (v : Option Coords) :
    dictGet (d ++ [(b, v)]) a = if b == a then some v else none := by
  unfold dictGet at h ⊢
  rw [List.find?_append]
  cases hf : d.find? (fun p => p.1 == a) with
  | some pr => rw [hf] at h; simp at h
  | none =>
      by_cases hba : b == a
      · simp [List.find?, hba]
      · simp [List.find?, hba]

theorem dictGet_append_single_of_ne {d : Cache} {a b : String}
    (hba : (b == a) = false) (v : Option Coords) :
    dictGet (d ++ [(b, v)]) a = dictGet d a := by
  cases hd : dictGet d a with
  | some w => exact dictGet_append_of_some hd _
  | none => rw [dictGet_append_single_of_none hd b v, hba]; simp

theorem geocode_one_cached {p : String → GeoReply} {s : GeoState} {b : String}
    {cached : Option Coords} (h : dictGet s.cache b = some cached) :
    geocode_one p s b = { s with address_coords := s.address_coords ++ [(b, cached)] } := by
  unfold geocode_one
  rw [h]

theorem geocode_one_miss {p : String → GeoReply} {s : GeoState} {b : String}
    (h : dictGet s.cache b = none) :
    geocode_one p s b =
      { cache := s.cache ++ [(b, geoEntry (p (b ++ ", Berkeley, CA")))]
        address_coords := s.address_coords ++ [(b, geoEntry (p (b ++ ", Berkeley, CA")))]
        calls := s.calls ++ [b] } := by
  unfold geocode_one
  rw [h]

/-- A cache binding survives one loop step. -/
theorem cache_mono_one (p : String → GeoReply) {a : String} {v : Option Coords}
    {s : GeoState} (b : String) (h : dictGet s.cache a = some v) :
    dictGet (geocode_one p s b).cache a = some v := by
  cases hc : dictGet s.cache b with
  | some cached => rw [geocode_one_cached hc]; exact h
  | none => rw [geocode_one_miss hc]; exact dictGet_append_of_some h _

/-- A cache binding survives the whole loop. -/
theorem cache_mono_fold (p : String → GeoReply) {a : String} {v : Option Coords} :
    ∀ (l : List String) (s : GeoState), dictGet s.cache a = some v →
      dictGet ((List.foldl (geocode_one p) s l)).cache a = some v := by
  intro l
  induction l with
  | nil => intro s h; exact h
  | cons b rest ih =>
      intro s h
      rw [List.foldl_cons]
      exact ih _ (cache_mono_one p b h)

theorem cache_mono_fold_isSome (p : String → GeoReply) {a : String}
    (l : List String) (s : GeoState) (h : (dictGet s.cache a).isSome) :
    (dictGet ((List.foldl (geocode_one p) s l)).cache a).isSome := by
  rcases Option.isSome_iff_exists.mp h with ⟨v, hv⟩
  rw [cache_mono_fold p l s hv]
  rfl

/-- An address cached when the loop starts is never sent to the
provider: the call log for it does not grow. -/
theorem calls_count_cached (p : String → GeoReply) (a : String) :
    ∀ (l : List String) (s : GeoState), (dictGet s.cache a).isSome →
      ((List.foldl (geocode_one p) s l)).calls.count a = s.calls.count a := by
  intro l
  induction l with
  | nil => intro s _; rfl
  | cons b rest ih =>
      intro s h
      rw [List.foldl_cons]
      cases hc : dictGet s.cache b with
      | some cached =>
          rw [geocode_one_cached hc]
          exact ih _ h
      | none =>
          have hba : (b == a) = false := by
            rcases Option.isSome_iff_exists.mp h with ⟨v, hv⟩
            rw [beq_eq_false_iff_ne]
            intro he
            rw [he, hv] at hc
            exact Option.noConfusion hc
          rw [geocode_one_miss hc]
          have h₂ : (dictGet (s.cache ++ [(b, geoEntry (p (b ++ ", Berkeley, CA")))]) a).isSome := by
            rw [dictGet_append_single_of_ne hba]
            exact h
          rw [ih _ h₂]
          simp [List.count_append, List.count_cons, hba]

/-- Each address is sent to the provider at most once more than it
already appears in the call log, and not at all when it is cached. -/
theorem calls_count_bound (p : String → GeoReply) (a : String) :
    ∀ (l : List String) (s : GeoState),
      ((List.foldl (geocode_one p) s l)).calls.count a ≤
        s.calls.count a + (if (dictGet s.cache a).isSome then 0 else 1) := by
  intro l
  induction l with
  | nil =>
      intro s
      exact Nat.le_add_right _ _
  | cons b rest ih =>
      intro s
      rw [List.foldl_cons]
      cases hc : dictGet s.cache b with
      | some cached =>
          rw [geocode_one_cached hc]
          exact ih _
      | none =>
          rw [geocode_one_miss hc]
          have hihh := ih ⟨s.cache ++ [(b, geoEntry (p (b ++ ", Berkeley, CA")))],
            s.address_coords ++ [(b, geoEntry (p (b ++ ", Berkeley, CA")))], s.calls ++ [b]⟩
          by_cases hba : b = a
          · subst hba
            have hsome :
                (dictGet (s.cache ++ [(b, geoEntry (p (b ++ ", Berkeley, CA")))]) b).isSome := by
              rw [dictGet_append_single_of_none hc b _]
              simp
            have hcalls : (s.calls ++ [b]).count b = s.calls.count b + 1 := by
              simp [List.count_append]
            rw [hc]
            simp only [hsome, hcalls, if_true, Option.isSome_none, Bool.false_eq_true,
              if_false] at hihh ⊢
            omega
          · have hba' : (b == a) = false := by rw [beq_eq_false_iff_ne]; exact hba
            have hcount : (s.calls ++ [b]).count a = s.calls.count a := by
              simp [List.count_append, List.count_cons, hba']
            have hcache :
                dictGet (s.cache ++ [(b, geoEntry (p (b ++ ", Berkeley, CA")))]) a =
                  dictGet s.cache a := dictGet_append_single_of_ne hba' _
            simpa [hcache, hcount] using hihh

/-- An address in the final call log either was already in the log or
ends up cached. -/
theorem mem_calls_imp_cached (p : String → GeoReply) (a : String) :
    ∀ (l : List String) (s : GeoState), a ∈ ((List.foldl (geocode_one p) s l)).calls →
      a ∈ s.calls ∨ (dictGet ((List.foldl (geocode_one p) s l)).cache a).isSome := by
  intro l
  induction l with
  | nil => intro s h; exact Or.inl h
  | cons b rest ih =>
      intro s h
      rw [List.foldl_cons] at h ⊢
      cases hc : dictGet s.cache b with
      | some cached =>
          rw [geocode_one_cached hc] at h ⊢
          rcases ih _ h with h' | h'
          · exact Or.inl h'
          · exact Or.inr h'
      | none =>
          rw [geocode_one_miss hc] at h ⊢
          rcases ih _ h with h' | h'
          · rcases List.mem_append.mp h' with h'' | h''
            · exact Or.inl h''
            · have hba : a = b := by simpa using h''
              refine Or.inr (cache_mono_fold_isSome p rest _ ?_)
              rw [hba]
              show (dictGet (s.cache ++ [(b, geoEntry (p (b ++ ", Berkeley, CA")))]) b).isSome
              rw [dictGet_append_single_of_none hc b _]
              simp
          · exact Or.inr h'

/-- An uncached address whose provider lookup raises ends up recorded in
the cache as unresolvable (a null entry). -/
theorem error_marked_unresolvable (p : String → GeoReply) (a : String) :
    ∀ (l : List String) (s : GeoState), a ∈ l → dictGet s.cache a = none →
      p (a ++ ", Berkeley, CA") = GeoReply.error →
      dictGet ((List.foldl (geocode_one p) s l)).cache a = some none := by
  intro l
  induction l with
  | nil => intro s h; exact absurd h (List.not_mem_nil a)
  | cons b rest ih =>
      intro s hmem hc he
      rw [List.foldl_cons]
      by_cases hba : b = a
      · subst hba
        rw [geocode_one_miss hc]
        refine cache_mono_fold p rest _ ?_
        show dictGet (s.cache ++ [(b, geoEntry (p (b ++ ", Berkeley, CA")))]) b = some none
        rw [dictGet_append_single_of_none hc b _, he]
        simp [geoEntry]
      · have hmem' : a ∈ rest := by
          rcases List.mem_cons.mp hmem with h' | h'
          · exact absurd h'.symm hba
          · exact h'
        cases hcb : dictGet s.cache b with
        | some cached =>
            rw [geocode_one_cached hcb]
            exact ih _ hmem' hc he
        | none =>
            rw [geocode_one_miss hcb]
            have hba' : (b == a) = false := by rw [beq_eq_false_iff_ne]; exact hba
            refine ih _ hmem' ?_ he
            show dictGet (s.cache ++ [(b, geoEntry (p (b ++ ", Berkeley, CA")))]) a = none
            rw [dictGet_append_single_of_ne hba' _]
            exact hc

/-- An address-coords binding survives one loop step. -/
theorem ac_isSome_mono_one (p : String → GeoReply) {x : String} {s : GeoState}
    (b : String) (h : (dictGet s.address_coords x).isSome) :
    (dictGet (geocode_one p s b).address_coords x).isSome := by
  rcases Option.isSome_iff_exists.mp h with ⟨v, hv⟩
  cases hc : dictGet s.cache b with
  | some cached =>
      rw [geocode_one_cached hc]
      show (dictGet (s.address_coords ++ [(b, cached)]) x).isSome
      rw [dictGet_append_of_some hv]
      rfl
  | none =>
      rw [geocode_one_miss hc]
      show (dictGet (s.address_coords ++ [(b, geoEntry (p (b ++ ", Berkeley, CA")))]) x).isSome
      rw [dictGet_append_of_some hv]
      rfl

theorem ac_isSome_mono_fold (p : String → GeoReply) {x : String} :
    ∀ (l : List String) (s : GeoState), (dictGet s.address_coords x).isSome →
      (dictGet ((List.foldl (geocode_one p) s l)).address_coords x).isSome := by
  intro l
  induction l with
  | nil => intro s h; exact h
  | cons b rest ih =>
      intro s h
      rw [List.foldl_cons]
      exact ih _ (ac_isSome_mono_one p b h)

/-- After one step on address `b`, `b` has an address-coords entry. -/
theorem ac_self_one (p : String → GeoReply) (s : GeoState) (b : String) :
    (dictGet (geocode_one p s b).address_coords b).isSome := by
  cases hc : dictGet s.cache b with
  | some cached =>
      rw [geocode_one_cached hc]
      show (dictGet (s.address_coords ++ [(b, cached)]) b).isSome
      cases hd : dictGet s.address_coords b with
      | some w => rw [dictGet_append_of_some hd]; rfl
      | none => rw [dictGet_append_single_of_none hd b _]; simp
  | none =>
      rw [geocode_one_miss hc]
      show (dictGet (s.address_coords ++ [(b, geoEntry (p (b ++ ", Berkeley, CA")))]) b).isSome
      cases hd : dictGet s.address_coords b with
      | some w => rw [dictGet_append_of_some hd]; rfl
      | none => rw [dictGet_append_single_of_none hd b _]; simp

/-- Every address the loop iterates over receives a per-address result:
a failing address never aborts the batch. -/
theorem ac_covers (p : String → GeoReply) :
    ∀ (l : List String) (s : GeoState) (b : String), b ∈ l →
      (dictGet ((List.foldl (geocode_one p) s l)).address_coords b).isSome := by
  intro l
  induction l with
  | nil => intro s b h; exact absurd h (List.not_mem_nil b)
  | cons c rest ih =>
      intro s b h
      rw [List.foldl_cons]
      by_cases hbc : b = c
      · subst hbc
        exact ac_isSome_mono_fold p rest _ (ac_self_one p s b)
      · have h' : b ∈ rest := by
          rcases List.mem_cons.mp h with h'' | h''
          · exact absurd h'' hbc
          · exact h''
        exact ih _ b h'

theorem geocode_addresses_calls (p : String → GeoReply) (c : Cache) (df : List Attributes) :
    (geocode_addresses p c df).calls = (geocode_pass p c (unique_addresses df)).calls := rfl

theorem geocode_addresses_cache (p : String → GeoReply) (c : Cache) (df : List Attributes) :
    (geocode_addresses p c df).cache = (geocode_pass p c (unique_addresses df)).cache := rfl

/-! ## Claim theorems (geocoding) -/

/-- C5: an address already present in the cache (resolved or marked
unresolvable) is never sent to the provider during a pass, and across
two runs sharing the (persisted) cache any address is looked up
externally at most once in total. -/
theorem C5_cached_address_never_requeried (provider : String → GeoReply)
    (cache0 : Cache) (df1 df2 : List Attributes) (a : String) :
    ((dictGet cache0 a).isSome → a ∉ (geocode_addresses provider cache0 df1).calls) ∧
      (geocode_addresses provider cache0 df1).calls.count a +
        (geocode_addresses provider (geocode_addresses provider cache0 df1).cache
          df2).calls.count a ≤ 1 := by
  constructor
  · intro h
    rw [geocode_addresses_calls]
    have h0 : (geocode_pass provider cache0 (unique_addresses df1)).calls.count a = 0 := by
      have := calls_count_cached provider a (unique_addresses df1) ⟨cache0, [], []⟩ h
      simpa [geocode_pass] using this
    rw [← List.count_pos_iff]
    omega
  · rw [geocode_addresses_calls, geocode_addresses_calls, geocode_addresses_cache]
    set l1 := unique_addresses df1
    set l2 := unique_addresses df2
    set r1 := geocode_pass provider cache0 l1 with hr1
    set r2 := geocode_pass provider r1.cache l2 with hr2
    have hb1 : r1.calls.count a ≤ (if (dictGet cache0 a).isSome then 0 else 1) := by
      have := calls_count_bound provider a l1 ⟨cache0, [], []⟩
      simpa [geocode_pass, ← hr1] using this
    by_cases hpos : 0 < r1.calls.count a
    · have hmem : a ∈ r1.calls := List.count_pos_iff.mp hpos
      have hcached : (dictGet r1.cache a).isSome := by
        rcases mem_calls_imp_cached provider a l1 ⟨cache0, [], []⟩ (by
          simpa [geocode_pass, ← hr1] using hmem) with h' | h'
        · exact absurd h' (List.not_mem_nil a)
        · simpa [geocode_pass, ← hr1] using h'
      have h2 : r2.calls.count a = 0 := by
        have := calls_count_cached provider a l2 ⟨r1.cache, [], []⟩ hcached
        simpa [geocode_pass, ← hr2] using this
      have h1 : r1.calls.count a ≤ 1 := le_trans hb1 (by split <;> omega)
      omega
    · have h1 : r1.calls.count a = 0 := by omega
      have hb2 : r2.calls.count a ≤ (if (dictGet r1.cache a).isSome then 0 else 1) := by
        have := calls_count_bound provider a l2 ⟨r1.cache, [], []⟩
        simpa [geocode_pass, ← hr2] using this
      have h2 : r2.calls.count a ≤ 1 := le_trans hb2 (by split <;> omega)
      omega

/-- Witness for C5: address "A" is pre-cached as unresolvable; it is
never re-queried, and over two identical runs it is looked up zero
times. -/
theorem C5_cached_address_never_requeried_witness :
    ("A" ∉ (geocode_addresses (fun _ => GeoReply.notFound) [("A", none)]
        [⟨"Theft", some "A", 0⟩, ⟨"Theft", some "B", 0⟩]).calls) ∧
      (geocode_addresses (fun _ => GeoReply.notFound) [("A", none)]
          [⟨"Theft", some "A", 0⟩, ⟨"Theft", some "B", 0⟩]).calls.count "A" +
        (geocode_addresses (fun _ => GeoReply.notFound)
          (geocode_addresses (fun _ => GeoReply.notFound) [("A", none)]
            [⟨"Theft", some "A", 0⟩, ⟨"Theft", some "B", 0⟩]).cache
          [⟨"Theft", some "A", 0⟩, ⟨"Theft", some "B", 0⟩]).calls.count "A" ≤ 1 :=
  ⟨(C5_cached_address_never_requeried (fun _ => GeoReply.notFound) [("A", none)]
      [⟨"Theft", some "A", 0⟩, ⟨"Theft", some "B", 0⟩]
      [⟨"Theft", some "A", 0⟩, ⟨"Theft", some "B", 0⟩] "A").1 (by decide),
    (C5_cached_address_never_requeried (fun _ => GeoReply.notFound) [("A", none)]
      [⟨"Theft", some "A", 0⟩, ⟨"Theft", some "B", 0⟩]
      [⟨"Theft", some "A", 0⟩, ⟨"Theft", some "B", 0⟩] "A").2⟩

/-- C7: an uncached address whose provider lookup raises is recorded in
the cache as unresolvable, the error is not propagated (the pass is a
total function), and every unique address of the batch — including the
remaining ones — still receives its per-address result. -/
theorem C7_lookup_error_is_caught (provider : String → GeoReply) (cache0 : Cache)
    (df : List Attributes) (a : String)
    (ha : a ∈ unique_addresses df)
    (hc : dictGet cache0 a = none)
    (he : provider (a ++ ", Berkeley, CA") = GeoReply.error) :
    dictGet (geocode_addresses provider cache0 df).cache a = some none ∧
      ∀ b ∈ unique_addresses df,
        (dictGet ((geocode_pass provider cache0
          (unique_addresses df))).address_coords b).isSome := by
  constructor
  · rw [geocode_addresses_cache]
    exact error_marked_unresolvable provider a (unique_addresses df)
      ⟨cache0, [], []⟩ ha hc he
  · intro b hb
    exact ac_covers provider (unique_addresses df) ⟨cache0, [], []⟩ b hb

/-- Witness for C7: a provider that always raises; address "X" is
recorded as unresolvable and both addresses of the batch are still
processed. -/
theorem C7_lookup_error_is_caught_witness :
    dictGet (geocode_addresses (fun _ => GeoReply.error) []
        [⟨"Theft", some "X", 0⟩, ⟨"Assault", some "Y", 1⟩]).cache "X" = some none ∧
      ∀ b ∈ unique_addresses [⟨"Theft", some "X", 0⟩, ⟨"Assault", some "Y", 1⟩],
        (dictGet ((geocode_pass (fun _ => GeoReply.error) []
          (unique_addresses [⟨"Theft", some "X", 0⟩,
            ⟨"Assault", some "Y", 1⟩]))).address_coords b).isSome :=
  C7_lookup_error_is_caught (fun _ => GeoReply.error) []
    [⟨"Theft", some "X", 0⟩, ⟨"Assault", some "Y", 1⟩] "X"
    (by decide) (by decide) (by decide)

/-- A surviving joined row always carries a non-null address. -/
theorem join_coords_isSome {ac : Cache} {r : Attributes} {g : GeoRow}
    (h : join_coords ac r = some g) : g.block_Address.isSome := by
  unfold join_coords at h
  split at h
  · exact Option.noConfusion h
  · split at h
    · cases h
      rfl
    · exact Option.noConfusion h

/-- C10: rows with a null address are dropped — every output row has a
non-null address — and a null-address row contributes nothing at all:
no provider call, no cache entry, no output row. -/
theorem C10_null_address_rows_dropped (provider : String → GeoReply) (cache0 : Cache)
    (df : List Attributes) (row : Attributes) (h : row.block_Address = none) :
    (∀ r ∈ (geocode_addresses provider cache0 df).rows, r.block_Address.isSome) ∧
      geocode_addresses provider cache0 (row :: df) =
        geocode_addresses provider cache0 df := by
  constructor
  · intro r hr
    have hr' : r ∈ df.filterMap (join_coords
        (geocode_pass provider cache0 (unique_addresses df)).address_coords) := hr
    rcases List.mem_filterMap.mp hr' with ⟨x, _, hfx⟩
    exact join_coords_isSome hfx
  · have hu : unique_addresses (row :: df) = unique_addresses df := by
      unfold unique_addresses
      rw [List.filterMap_cons_none h]
    unfold geocode_addresses
    rw [hu]
    have hj : join_coords (geocode_pass provider cache0
        (unique_addresses df)).address_coords row = none := by
      unfold join_coords
      rw [h]
    simp only [List.filterMap_cons_none hj]

/-- Witness for C10 at a concrete null-address row. -/
theorem C10_null_address_rows_dropped_witness :
    (∀ r ∈ (geocode_addresses (fun _ => GeoReply.notFound) []
        [⟨"Theft", some "B", 5⟩]).rows, r.block_Address.isSome) ∧
      geocode_addresses (fun _ => GeoReply.notFound) []
          [⟨"Burglary", none, 3⟩, ⟨"Theft", some "B", 5⟩] =
        geocode_addresses (fun _ => GeoReply.notFound) [] [⟨"Theft", some "B", 5⟩] :=
  C10_null_address_rows_dropped (fun _ => GeoReply.notFound) []
    [⟨"Theft", some "B", 5⟩] ⟨"Burglary", none, 3⟩ rfl

/-! ## Lemmas about the quantile interpolation -/

theorem sorted_getD_mono {v : List ℚ} (hs : v.Sorted (· ≤ ·)) {i j : Nat}
    (hij : i ≤ j) (hj : j < v.length) : v.getD i 0 ≤ v.getD j 0 := by
  have hi : i < v.length := Nat.lt_of_le_of_lt hij hj
  rw [List.getD_eq_getElem v 0 hi, List.getD_eq_getElem v 0 hj]
  have hg : v.get ⟨i, hi⟩ ≤ v.get ⟨j, hj⟩ := hs.rel_get_of_le (Fin.mk_le_mk.mpr hij)
  simpa using hg

/-- For `0 ≤ h` the virtual index is between its floor and floor + 1. -/
theorem virtual_index_bounds {h : ℚ} (h0 : 0 ≤ h) :
    ((⌊h⌋.toNat : Nat) : ℚ) ≤ h ∧ h - ((⌊h⌋.toNat : Nat) : ℚ) < 1 := by
  have hf0 : 0 ≤ ⌊h⌋ := Int.floor_nonneg.mpr h0
  have hcast : ((⌊h⌋.toNat : Nat) : ℚ) = ((⌊h⌋ : ℤ) : ℚ) := by
    exact_mod_cast congrArg (fun z : ℤ => (z : ℚ)) (Int.toNat_of_nonneg hf0)
  constructor
  · rw [hcast]
    exact Int.floor_le h
  · rw [hcast]
    have := Int.lt_floor_add_one h
    push_cast at this ⊢
    linarith

theorem floor_toNat_le {h : ℚ} {n : Nat} (hn : 1 ≤ n) (hub : h ≤ (n : ℚ) - 1) :
    ⌊h⌋.toNat ≤ n - 1 := by
  have h1 : ((n : ℚ) - 1) = (((n : ℤ) - 1 : ℤ) : ℚ) := by push_cast; ring
  have h2 : ⌊h⌋ ≤ (n : ℤ) - 1 := by
    have hmono := Int.floor_mono hub
    rw [h1, Int.floor_intCast] at hmono
    exact hmono
  omega

/-- The interpolated value lies between the two bracketing samples. -/
theorem interpSorted_between {v : List ℚ} (hs : v.Sorted (· ≤ ·)) (hn : 1 ≤ v.length)
    {h : ℚ} (h0 : 0 ≤ h) (hub : h ≤ (v.length : ℚ) - 1) :
    v.getD (⌊h⌋.toNat) 0 ≤ interpSorted v h ∧
      interpSorted v h ≤ v.getD (min (⌊h⌋.toNat + 1) (v.length - 1)) 0 := by
  have hf := virtual_index_bounds h0
  have hfle : ⌊h⌋.toNat ≤ v.length - 1 := floor_toNat_le hn hub
  have hminlt : min (⌊h⌋.toNat + 1) (v.length - 1) < v.length := by omega
  have hd : v.getD (⌊h⌋.toNat) 0 ≤ v.getD (min (⌊h⌋.toNat + 1) (v.length - 1)) 0 :=
    sorted_getD_mono hs (by omega) hminlt
  unfold interpSorted
  constructor
  · nlinarith [hf.1, hf.2, hd]
  · nlinarith [hf.1, hf.2, hd]

theorem interpSorted_mono {v : List ℚ} (hs : v.Sorted (· ≤ ·)) (hn : 1 ≤ v.length)
    {h1 h2 : ℚ} (h0 : 0 ≤ h1) (h12 : h1 ≤ h2) (hub : h2 ≤ (v.length : ℚ) - 1) :
    interpSorted v h1 ≤ interpSorted v h2 := by
  have h0' : 0 ≤ h2 := le_trans h0 h12
  have hub' : h1 ≤ (v.length : ℚ) - 1 := le_trans h12 hub
  rcases eq_or_lt_of_le (Int.floor_mono h12 : ⌊h1⌋ ≤ ⌊h2⌋) with hf | hf
  · have hfle : ⌊h2⌋.toNat ≤ v.length - 1 := floor_toNat_le hn hub
    have hminlt : min (⌊h2⌋.toNat + 1) (v.length - 1) < v.length := by omega
    have hd : v.getD (⌊h2⌋.toNat) 0 ≤ v.getD (min (⌊h2⌋.toNat + 1) (v.length - 1)) 0 :=
      sorted_getD_mono hs (by omega) hminlt
    unfold interpSorted
    rw [hf]
    nlinarith [hd]
  · have hb1 := interpSorted_between hs hn h0 hub'
    have hb2 := interpSorted_between hs hn h0' hub
    have hf1 : 0 ≤ ⌊h1⌋ := Int.floor_nonneg.mpr h0
    have hstep : ⌊h1⌋.toNat + 1 ≤ ⌊h2⌋.toNat := by omega
    have hfle2 : ⌊h2⌋.toNat ≤ v.length - 1 := floor_toNat_le hn hub
    have hmid : v.getD (min (⌊h1⌋.toNat + 1) (v.length - 1)) 0 ≤ v.getD (⌊h2⌋.toNat) 0 :=
      sorted_getD_mono hs (by omega) (by omega)
    linarith [hb1.2, hb2.1, hmid]

/-- `np.quantile` is monotone in the quantile level. -/
theorem npQuantile_mono_q {values : List ℚ} (hne : values ≠ []) {q1 q2 : ℚ}
    (h0 : 0 ≤ q1) (h12 : q1 ≤ q2) (h1 : q2 ≤ 1) :
    npQuantile values q1 ≤ npQuantile values q2 := by
  unfold npQuantile
  have hlen : (values.insertionSort (· ≤ ·)).length = values.length :=
    List.length_insertionSort _ _
  have hpos : 1 ≤ values.length := List.length_pos.mpr hne
  have hn : 1 ≤ (values.insertionSort (· ≤ ·)).length := by omega
  have hnq : (0:ℚ) ≤ (values.length : ℚ) - 1 := by
    have h1' : (1:ℚ) ≤ (values.length : ℚ) := by exact_mod_cast hpos
    linarith
  apply interpSorted_mono (List.sorted_insertionSort _ values) hn
  · exact mul_nonneg h0 hnq
  · exact mul_le_mul_of_nonneg_right h12 hnq
  · rw [hlen]
    calc q2 * ((values.length : ℚ) - 1) ≤ 1 * ((values.length : ℚ) - 1) :=
          mul_le_mul_of_nonneg_right h1 hnq
      _ = (values.length : ℚ) - 1 := one_mul _

/-! ## Lemmas about rounding and clipping -/

theorem roundHalfEven_bounds (x : ℝ) :
    ⌊x⌋ ≤ roundHalfEven x ∧ roundHalfEven x ≤ ⌊x⌋ + 1 := by
  unfold roundHalfEven
  split_ifs <;> omega

theorem roundHalfEven_mono {x y : ℝ} (h : x ≤ y) :
    roundHalfEven x ≤ roundHalfEven y := by
  rcases lt_or_ge ⌊x⌋ ⌊y⌋ with hf | hf
  · have h1 := (roundHalfEven_bounds x).2
    have h2 := (roundHalfEven_bounds y).1
    omega
  · have hfe : ⌊x⌋ = ⌊y⌋ := le_antisymm (Int.floor_mono h) hf
    unfold roundHalfEven
    rw [hfe]
    have hxy : x - ((⌊y⌋ : ℤ) : ℝ) ≤ y - ((⌊y⌋ : ℤ) : ℝ) := by linarith
    split_ifs <;> first | omega | linarith

theorem np_round1_mono {x y : ℝ} (h : x ≤ y) : np_round1 x ≤ np_round1 y := by
  unfold np_round1
  have hr := roundHalfEven_mono (show x * 10 ≤ y * 10 by linarith)
  have hc : ((roundHalfEven (x * 10) : ℤ) : ℝ) ≤ ((roundHalfEven (y * 10) : ℤ) : ℝ) := by
    exact_mod_cast hr
  linarith

theorem clipR_mono (lo hi : ℝ) {x y : ℝ} (h : x ≤ y) :
    clipR lo hi x ≤ clipR lo hi y := by
  unfold clipR
  exact min_le_min le_rfl (max_le_max le_rfl h)

theorem clipR_bounds {lo hi : ℝ} (hlh : lo ≤ hi) (x : ℝ) :
    lo ≤ clipR lo hi x ∧ clipR lo hi x ≤ hi := by
  unfold clipR
  exact ⟨le_min hlh (le_max_left _ _), min_le_left _ _⟩

/-- The inverted sigmoid `10 * (1 - 1 / (1 + exp(-3 s)))` is antitone. -/
theorem sigmoid_inverted_antitone {s1 s2 : ℝ} (h : s1 ≤ s2) :
    sigmoid_inverted s2 ≤ sigmoid_inverted s1 := by
  unfold sigmoid_inverted
  have he : Real.exp (-3 * s2) ≤ Real.exp (-3 * s1) := Real.exp_le_exp.mpr (by linarith)
  have hp1 : (0:ℝ) < 1 + Real.exp (-3 * s1) := by positivity
  have hp2 : (0:ℝ) < 1 + Real.exp (-3 * s2) := by positivity
  have hinv : 1 / (1 + Real.exp (-3 * s1)) ≤ 1 / (1 + Real.exp (-3 * s2)) :=
    one_div_le_one_div_of_le hp2 (by linarith)
  linarith

/-- Stage-1 scores never leave the clip interval. -/
theorem score_of_bounds (crime_counts : List ℚ) (c : ℚ) :
    (0.5:ℝ) ≤ score_of crime_counts c ∧ score_of crime_counts c ≤ 9.5 := by
  simp only [score_of]
  exact clipR_bounds (by norm_num) _

/-- Stage-1 scores are antitone in the raw count. -/
theorem score_of_antitone {crime_counts : List ℚ} (hne : crime_counts ≠ [])
    {a b : ℚ} (hab : a ≤ b) :
    score_of crime_counts b ≤ score_of crime_counts a := by
  simp only [score_of]
  have hpq : npQuantile crime_counts 0.5 ≤ npQuantile crime_counts 0.95 :=
    npQuantile_mono_q hne (by norm_num) (by norm_num) (by norm_num)
  have heps : (0:ℚ) < 1e-9 := by norm_num
  have hd : (0:ℚ) < npQuantile crime_counts 0.95 - npQuantile crime_counts 0.5 + 1e-9 := by
    linarith
  have hx : min a (npQuantile crime_counts 0.95) ≤ min b (npQuantile crime_counts 0.95) :=
    min_le_min hab le_rfl
  have hscaled :
      (min a (npQuantile crime_counts 0.95) - npQuantile crime_counts 0.5) /
          (npQuantile crime_counts 0.95 - npQuantile crime_counts 0.5 + 1e-9) ≤
        (min b (npQuantile crime_counts 0.95) - npQuantile crime_counts 0.5) /
          (npQuantile crime_counts 0.95 - npQuantile crime_counts 0.5 + 1e-9) :=
    (div_le_div_iff_of_pos_right hd).mpr (by linarith)
  have hcast :
      (((min a (npQuantile crime_counts 0.95) - npQuantile crime_counts 0.5) /
          (npQuantile crime_counts 0.95 - npQuantile crime_counts 0.5 + 1e-9) : ℚ) : ℝ) ≤
        (((min b (npQuantile crime_counts 0.95) - npQuantile crime_counts 0.5) /
          (npQuantile crime_counts 0.95 - npQuantile crime_counts 0.5 + 1e-9) : ℚ) : ℝ) := by
    exact_mod_cast hscaled
  exact clipR_mono _ _ (np_round1_mono (sigmoid_inverted_antitone hcast))

/-! ## Claim theorems (Density Scorer) -/

/-- C9: within one count distribution the stage-1 score is monotone
non-increasing in the incident count, and every returned score lies in
[0.5, 9.5]. -/
theorem C9_density_scores_monotone_bounded (crime_counts : List ℚ) (a b : ℚ)
    (ha : a ∈ crime_counts) (hb : b ∈ crime_counts) (hab : a ≤ b) :
    score_of crime_counts b ≤ score_of crime_counts a ∧
      ∀ s ∈ calculate_crime_density_scores crime_counts, (0.5:ℝ) ≤ s ∧ s ≤ 9.5 := by
  have hne : crime_counts ≠ [] := List.ne_nil_of_mem ha
  refine ⟨score_of_antitone hne hab, ?_⟩
  intro s hs
  rcases List.mem_map.mp hs with ⟨c, _, rfl⟩
  exact score_of_bounds crime_counts c

/-- Witness for C9 on the two-edge distribution [1, 2]. -/
theorem C9_density_scores_monotone_bounded_witness :
    score_of [1, 2] 2 ≤ score_of [1, 2] 1 ∧
      ∀ s ∈ calculate_crime_density_scores [1, 2], (0.5:ℝ) ≤ s ∧ s ≤ 9.5 :=
  C9_density_scores_monotone_bounded [1, 2] 1 2 (by simp) (by simp) (by norm_num)

/-- C1 (code bug): for a network where every edge has identical
pre-normalization scores — e.g. an entirely zero-incident network, where
every edge carries the `fillna` default 10 — the sample standard
deviation is zero and the re-normalization divides zero by zero with no
fallback: every edge's final safety score is NaN (`none`), not a value
in [0, 10] such as the midpoint 5.0. -/
theorem C1_zero_variance_renormalization_is_nan :
    renormalize_scores (all_zero_incident_scores 2) = [none, none] := by
  have hvar : seriesVar (all_zero_incident_scores 2) = 0 := by
    norm_num [seriesVar, seriesMean, all_zero_incident_scores, List.replicate]
  have hlen : ¬ ((all_zero_incident_scores 2).length ≤ 1) := by
    norm_num [all_zero_incident_scores]
  unfold renormalize_scores
  rw [if_neg hlen, if_pos hvar]
  norm_num [all_zero_incident_scores, List.replicate]

end CrimeDataStory
